import Mathlib

/-!
Verification of the slocum passage planner core (`src/python/slocum.py`)
against its natural-language specification.

Shallow embedding conventions:
* Python floats are modelled as real numbers (`ℝ`); `np.sqrt` is `Real.sqrt`.
* `datetime` timestamps and `timedelta` values are modelled as integer
  seconds (`ℤ`); `datetime` subtraction is integer subtraction.
* Python 2 integer division (`timedelta.seconds / SECONDS_IN_HOUR` with both
  operands integers) is `Int.ediv`; the normalized fields of a `timedelta`
  are recovered with `ediv`/`emod` by `86400` (seconds per day).
* `int(x)` truncation toward zero is `pyInt`.
* The navigation library `lib.navigation` (rhumbline bearing / distance /
  path) is not part of the core source; per the spec it is an external,
  pure "Navigation Oracle" and is a parameter (`NavOracle`) of every
  simulator definition.
* `objects.Wind` is constructed from a `(u, v)` pair by external library
  code; the construction function `windOf` is likewise a parameter.
* One ensemble member (`wx_fields`, a dict from timestamp to queryable
  field) is modelled by the list of its keys (`times : List ℤ`, the keys of
  a dict, hence the order is irrelevant after sorting) together with a
  total sampling function `wxf : ℤ → LatLon → ℝ × ℝ` returning the
  `(uwnd, vwnd)` pair that lines 126-128 extract at the current position.
  Extension fields (the residual `wx` dict) are not inspected by any claim
  and are omitted from `Leg`.
* A Python exception that escapes to the caller is modelled by `none`
  (`Option`); a Python 2 `StopIteration` raised inside the generator body
  merely terminates the generator, which is *not* an error to the caller.
-/

/-- `objects.LatLon`: latitude / longitude in degrees (floats). -/
structure LatLon where
  lat : ℝ
  lon : ℝ

instance : Inhabited LatLon := ⟨⟨0, 0⟩⟩

/-- `objects.Wind`: wind with a speed (knots) and a direction (radians),
as read by `boat_speed` and the simulator. -/
structure Wind where
  speed : ℝ
  dir : ℝ

/-- `objects.Course(loc, speed, bearing, heading)` as built on line 135. -/
structure Course where
  loc : LatLon
  speed : ℝ
  bearing : ℝ
  heading : ℝ

/-- `objects.Leg(course, now, wind, distance, rel_wind, wx)` as yielded on
line 157 (the residual extension-field dict `wx` is not used by any claim
and is omitted). -/
structure Leg where
  course : Course
  time : ℤ
  wind : Wind
  distance : ℝ
  rel_wind_dir : ℝ

/-- Module constant `MAX_BOAT_SPEED = 6` (line 65). -/
def MAX_BOAT_SPEED : ℝ := 6

/-- Module constant `MAX_POINTING = 0.3490658503988659` (line 66). -/
def MAX_POINTING : ℝ := 0.3490658503988659

/-- Module constant `MIN_WIND_SPEED = 3` (line 67). -/
def MIN_WIND_SPEED : ℝ := 3

/-- Module constant `REQ_WIND_SPEED = 15` (line 68). -/
def REQ_WIND_SPEED : ℝ := 15

/-- Module constant `MAX_WIND_SPEED = 35` (line 69). -/
def MAX_WIND_SPEED : ℝ := 35

/-- Module constant `SECONDS_IN_HOUR = 3600` (line 70), an int. -/
def SECONDS_IN_HOUR : ℤ := 3600

/-- The two-line folding idiom `if x > np.pi: x = 2*np.pi - x` used at
lines 81-82 and 136-138: fold an absolute angular difference at π. -/
noncomputable def foldPi (x : ℝ) : ℝ :=
  if x > Real.pi then 2 * Real.pi - x else x

/-- `directional_max_speed(deg_off_wind)` (lines 74-78). -/
noncomputable def directional_max_speed (deg_off_wind : ℝ) : ℝ :=
  if deg_off_wind > MAX_POINTING then MAX_BOAT_SPEED
  else (0.5 + 0.5 * deg_off_wind / MAX_POINTING) * MAX_BOAT_SPEED

/-- `boat_speed(wind, bearing)` (lines 80-89). -/
noncomputable def boat_speed (wind : Wind) (bearing : ℝ) : ℝ :=
  let deg_off_wind := foldPi |wind.dir - bearing|
  if wind.speed > MIN_WIND_SPEED ∧ wind.speed ≤ REQ_WIND_SPEED then
    directional_max_speed deg_off_wind *
      Real.sqrt ((wind.speed - MIN_WIND_SPEED) / (REQ_WIND_SPEED - MIN_WIND_SPEED))
  else if wind.speed > MIN_WIND_SPEED ∧ wind.speed ≤ MAX_WIND_SPEED then
    directional_max_speed deg_off_wind
  else 0

/-- `hours(timedelta)` (lines 91-92): `timedelta.days * 24 +
timedelta.seconds / SECONDS_IN_HOUR` with Python 2 integer division.  A
`timedelta` of `td` total seconds is normalized to `days = td fdiv 86400`
and `seconds = td mod 86400 ∈ [0, 86400)`; for a positive divisor
`Int.ediv`/`Int.emod` are exactly that floor pair.  The value is an
integer, returned by the Python code as a float. -/
def hours (td : ℤ) : ℤ :=
  td.ediv 86400 * 24 + (td.emod 86400).ediv SECONDS_IN_HOUR

/-- Python `int(x)` on a float: truncation toward zero. -/
noncomputable def pyInt (x : ℝ) : ℤ :=
  if 0 ≤ x then ⌊x⌋ else ⌈x⌉

/-- The external Navigation Oracle (spec §2, §6): `lib.navigation`.
Modelled from the spec: `bearing(a, b) → radians`,
`distance(a, b) → nautical_miles`, and `path(a, bearing)` mapping a
distance along the bearing to a new location (`rhumbline_bearing`,
`rhumbline_distance`, `rhumbline_path` in the source, which is outside
the core). -/
structure NavOracle where
  bearing : LatLon → LatLon → ℝ
  distance : LatLon → LatLon → ℝ
  path : LatLon → ℝ → ℝ → LatLon

open Classical

/-- The mutable loop state of `simulate_passage`: current location
(`here`), time cursor (`now`), forecast sample time (`fcst_time`), next
timestamp (`soon`) and current timestep (`dt = soon - now`, in seconds). -/
structure SimState where
  here : LatLon
  now : ℤ
  fcst : ℤ
  soon : ℤ
  dt : ℤ

/-- The observable outcome of one `simulate_passage` generator run:
the yielded legs in order, whether the `except StopIteration` handler ran
(line 158-159, `logging.error("Ran out of data!")`), and — as a ghost
observation of the final loop state — the waypoints not yet reached when
the generator finished. -/
structure SimResult where
  legs : List Leg
  exhausted : Bool
  pending : List LatLon

/-- Prepend one yielded leg to the rest of a generator run. -/
def consLeg (l : Leg) (r : SimResult) : SimResult :=
  ⟨l :: r.legs, r.exhausted, r.pending⟩

/-- Line 122-133: sample the field at `fcst_time` and the current
location, and build the `Wind` from the extracted `(uwnd, vwnd)`. -/
noncomputable def stepWind (windOf : ℝ → ℝ → Wind) (wxf : ℤ → LatLon → ℝ × ℝ)
    (st : SimState) : Wind :=
  windOf (wxf st.fcst st.here).1 (wxf st.fcst st.here).2

/-- Line 134: `speed = max(boat_speed(wind, bearing), 1.0)`. -/
noncomputable def stepSpeed (nav : NavOracle) (windOf : ℝ → ℝ → Wind)
    (wxf : ℤ → LatLon → ℝ × ℝ) (st : SimState) (d : LatLon) : ℝ :=
  max (boat_speed (stepWind windOf wxf st) (nav.bearing st.here d)) 1.0

/-- Line 135: `course = objects.Course(here, speed, bearing, bearing)`. -/
noncomputable def stepCourse (nav : NavOracle) (windOf : ℝ → ℝ → Wind)
    (wxf : ℤ → LatLon → ℝ × ℝ) (st : SimState) (d : LatLon) : Course :=
  ⟨st.here, stepSpeed nav windOf wxf st d, nav.bearing st.here d, nav.bearing st.here d⟩

/-- Lines 136-138: the relative wind angle, folded at π. -/
noncomputable def stepRelWind (nav : NavOracle) (windOf : ℝ → ℝ → Wind)
    (wxf : ℤ → LatLon → ℝ × ℝ) (st : SimState) (d : LatLon) : ℝ :=
  foldPi |(stepCourse nav windOf wxf st d).heading - (stepWind windOf wxf st).dir|

/-- Line 140: `distance = speed * hours(dt)`. -/
noncomputable def stepDist (nav : NavOracle) (windOf : ℝ → ℝ → Wind)
    (wxf : ℤ → LatLon → ℝ × ℝ) (st : SimState) (d : LatLon) : ℝ :=
  stepSpeed nav windOf wxf st d * (hours st.dt : ℝ)

/-- Line 144: `required_time = int(hours(dt) * SECONDS_IN_HOUR * remaining
/ distance)`. -/
noncomputable def reqTime (nav : NavOracle) (windOf : ℝ → ℝ → Wind)
    (wxf : ℤ → LatLon → ℝ × ℝ) (st : SimState) (d : LatLon) : ℤ :=
  pyInt ((hours st.dt : ℝ) * (SECONDS_IN_HOUR : ℝ) * nav.distance st.here d /
    stepDist nav windOf wxf st d)

/-- The `for destination in waypoints: while not here == destination`
loop of `simulate_passage` (lines 118-159), after the initial two reads
of the time iterator.  `rest` is what remains of
`iter(sorted(wx_fields.keys()))` beyond the current `soon`.  In the
arrival branch (lines 142-147) the assignment `here = destination` makes
the `while` guard false on re-entry, so the embedding proceeds directly
to the next waypoint; in the other branch, `soon = time_iter.next()`
(line 153) with an empty iterator raises `StopIteration` *before* the
`yield`, which the handler on lines 158-159 turns into a logged
data-exhaustion stop. -/
noncomputable def simLoop (nav : NavOracle) (windOf : ℝ → ℝ → Wind)
    (wxf : ℤ → LatLon → ℝ × ℝ) :
    List LatLon → List ℤ → SimState → SimResult
  | [], _, _ => ⟨[], false, []⟩
  | d :: ds, rest, st =>
    if st.here = d then
      simLoop nav windOf wxf ds rest st
    else if stepDist nav windOf wxf st d > nav.distance st.here d then
      -- lines 142-147: the target is reached within this timestep
      consLeg
        ⟨stepCourse nav windOf wxf st d, st.now + reqTime nav windOf wxf st d,
          stepWind windOf wxf st, nav.distance st.here d,
          stepRelWind nav windOf wxf st d⟩
        (simLoop nav windOf wxf ds rest
          ⟨d, st.now + reqTime nav windOf wxf st d, st.fcst, st.soon,
            st.soon - (st.now + reqTime nav windOf wxf st d)⟩)
    else
      -- lines 148-153: advance along the rhumbline and step the iterator
      match rest with
      | [] => ⟨[], true, d :: ds⟩
      | t :: ts =>
        consLeg
          ⟨stepCourse nav windOf wxf st d, st.soon, stepWind windOf wxf st,
            stepDist nav windOf wxf st d, stepRelWind nav windOf wxf st d⟩
          (simLoop nav windOf wxf (d :: ds) ts
            ⟨nav.path st.here (nav.bearing st.here d) (stepDist nav windOf wxf st d),
              st.soon, st.soon, t, t - st.soon⟩)
termination_by q rest _ => q.length + rest.length
decreasing_by all_goals (simp [List.length_cons]; try omega)

/-- Python `list(x)` / `dict(x)`: a fresh shallow copy with the same
elements; the caller-side object is untouched. -/
def pyCopy (l : List α) : List α := l

/-- Python `list.pop(0)` on a list value: the popped head together with
the list content after the in-place removal; `none` is the `IndexError`
on an empty list. -/
def pyPop0 : List α → Option (α × List α)
  | [] => none
  | x :: xs => some (x, xs)

/-- `simulate_passage(waypoints, start_date, wx_fields)` (lines 94-159),
as observed by a caller that drains the generator.  `start_date` is
accepted and ignored, exactly as in the source (the nearest-start-index
code on lines 109-110 is commented out; `now` starts at the earliest
timestamp).  Lines 104-106 copy both arguments and pop the start off the
copy.  `none` models an exception escaping to the caller: `IndexError`
from `waypoints.pop(0)` on an empty list, or `ValueError` from
`max(times)` (line 111) on an empty time axis.  With exactly one
timestamp the second `time_iter.next()` (line 116) raises
`StopIteration` outside the `try`, which in a Python 2 generator ends
the iteration silently: no legs, no logged exhaustion. -/
noncomputable def simulate_passage (nav : NavOracle) (windOf : ℝ → ℝ → Wind)
    (waypoints : List LatLon) (start_date : ℤ) (times : List ℤ)
    (wxf : ℤ → LatLon → ℝ × ℝ) : Option SimResult :=
  let wx_local := pyCopy times
  let wps_local := pyCopy waypoints
  match pyPop0 wps_local with
  | none => none
  | some (here0, queue) =>
    match List.insertionSort (· ≤ ·) wx_local with
    | [] => none
    | [_] => some ⟨[], false, queue⟩
    | t0 :: t1 :: rest =>
      some (simLoop nav windOf wxf queue rest ⟨here0, t0, t0, t1, t1 - t0⟩)

/-- One weather-field ensemble member: the key list of the
timestamp-to-field dict, plus the sampling function. -/
abbrev WxField := List ℤ × (ℤ → LatLon → ℝ × ℝ)

/-- `simulate_passages(waypoints, start_date, wx_fields)` (lines
161-164): one drained simulation per ensemble member; an exception in
any member propagates. -/
noncomputable def simulate_passages (nav : NavOracle) (windOf : ℝ → ℝ → Wind)
    (waypoints : List LatLon) (start_date : ℤ) (fields : List WxField) :
    Option (List SimResult) :=
  fields.mapM fun fl => simulate_passage nav windOf waypoints start_date fl.1 fl.2

/-- The caller-visible frame of one `simulate_passage` call: the result
together with the argument list and the argument key list as the caller
sees them after the call.  Lines 104-105 rebind `wx_fields` and
`waypoints` to fresh copies (`pyCopy`) and line 106 pops from the copy
only, so under this value-level model of the heap the caller retains the
original contents. -/
noncomputable def simulate_passage_frame (nav : NavOracle) (windOf : ℝ → ℝ → Wind)
    (waypoints : List LatLon) (start_date : ℤ) (times : List ℤ)
    (wxf : ℤ → LatLon → ℝ × ℝ) :
    Option SimResult × List LatLon × List ℤ :=
  (simulate_passage nav windOf waypoints start_date times wxf, waypoints, times)

/-- Minimum of a nonempty list written as head plus tail (`np.min`). -/
noncomputable def listMinD (x : ℝ) (xs : List ℝ) : ℝ := xs.foldl min x

/-- Maximum of a nonempty list written as head plus tail (`np.max`). -/
noncomputable def listMaxD (x : ℝ) (xs : List ℝ) : ℝ := xs.foldl max x

/-- `np.mean` of a list of floats: sum over length (the empty list gives
`0/0 = 0` here where numpy would give `nan`; no claim touches that case). -/
noncomputable def listMean (l : List ℝ) : ℝ := l.sum / l.length

/-- The summary record built by `summarize_passage` (lines 242-254).
`pct_upwind` is stored as the list of per-leg booleans, exactly as the
source leaves it. -/
structure Summary where
  hours : ℝ
  distance : ℝ
  min_wind : ℝ
  max_wind : ℝ
  avg_wind : ℝ
  min_dist : ℝ
  max_dist : ℝ
  avg_dist : ℝ
  pct_upwind : List Bool

/-- `summarize_passage(passage)` (lines 242-254).  `none` is the
`IndexError` from `passage[-1]` on an empty leg list.  Note that the
source computes `max_dist` and `avg_dist` from the `wind` list (line
252), not from the `dist` list built on line 251; the embedding keeps
that behaviour. -/
noncomputable def summarize_passage (nav : NavOracle) : List Leg → Option Summary
  | [] => none
  | first :: restLegs =>
    let passage := first :: restLegs
    let lastLeg := passage.getLast (by simp)
    let wind := passage.map fun x => x.wind.speed
    let dist := passage.map fun x => x.distance
    some
      { hours := (hours (lastLeg.time - first.time) : ℝ)
        distance := nav.distance lastLeg.course.loc first.course.loc
        min_wind := listMinD first.wind.speed (restLegs.map fun x => x.wind.speed)
        max_wind := listMaxD first.wind.speed (restLegs.map fun x => x.wind.speed)
        avg_wind := listMean wind
        min_dist := listMinD first.distance (restLegs.map fun x => x.distance)
        max_dist := listMaxD first.wind.speed (restLegs.map fun x => x.wind.speed)
        avg_dist := listMean wind
        pct_upwind := passage.map fun x =>
          if x.rel_wind_dir < Real.pi / 4 then true else false }

/-- Line 191: one candidate deviation waypoint, by linear interpolation
between the two corners with parameter `x`. -/
noncomputable def lerpCand (c1 c2 : LatLon) (x : ℝ) : LatLon :=
  ⟨x * c1.lat + (1 - x) * c2.lat, x * c1.lon + (1 - x) * c2.lon⟩

/-- Lines 181-192 of `optimal_passage`: the corners, the `resol`
candidate waypoints (`np.arange(0., 1., 1./resol)`), and for each
candidate the per-ensemble-member passage summaries of the route
`[start, x, end]`.  `none` propagates any exception from simulation or
summarization. -/
noncomputable def optimalRoutes (nav : NavOracle) (windOf : ℝ → ℝ → Wind)
    (start end_ : LatLon) (start_date : ℤ) (fields : List WxField) (resol : ℕ) :
    Option (List (LatLon × List Summary)) :=
  let c1 : LatLon := ⟨start.lat, end_.lon⟩
  let c2 : LatLon := ⟨end_.lat, start.lon⟩
  ((List.range resol).map fun (i : ℕ) => lerpCand c1 c2 ((i : ℝ) / (resol : ℝ))).mapM
    fun x =>
      ((simulate_passages nav windOf [start, x, end_] start_date fields).bind
        fun passages => passages.mapM fun p => summarize_passage nav p.legs).map
      fun summaries => (x, summaries)

/-- Lines 194-196, `issafe(route)`: `np.max([x['max_wind'] for x in
route]) <= MAX_WIND_SPEED`; `none` is the `ValueError` of `np.max` on an
empty list. -/
noncomputable def issafeRoute (route : List Summary) : Option Bool :=
  match route.map fun x => x.max_wind with
  | [] => none
  | m :: ms => some (if listMaxD m ms ≤ MAX_WIND_SPEED then true else false)

/-- Line 197: `safe_routes`, the candidates whose route is safe, in
generation order; an exception inside `issafe` propagates. -/
noncomputable def safeFilter :
    List (LatLon × List Summary) → Option (List (LatLon × List Summary))
  | [] => some []
  | xr :: rs =>
    (issafeRoute xr.2).bind fun b =>
      (safeFilter rs).map fun t => if b then xr :: t else t

/-- Line 203 / 199: the per-candidate mean of `hours` across its own
ensemble runs. -/
noncomputable def routeTime (route : List Summary) : ℝ :=
  listMean (route.map fun x => x.hours)

/-- Line 204 / 200: the per-candidate mean of `distance` across its own
ensemble runs. -/
noncomputable def routeDist (route : List Summary) : ℝ :=
  listMean (route.map fun x => x.distance)

/-- Line 205: `np.mean([x['pct_upwind'] for x in route])` — `np.mean`
over the nested per-member lists of booleans.  When every member
contributed the same number of legs the nested list is a rectangular
2-D boolean array and the mean is the grand mean of all the 0/1
entries; with ragged lengths numpy builds an object array whose
reduction concatenates the lists and then cannot divide a list by the
count, raising `TypeError` — modelled as `none`.  (`np.mean([])` with
no members returns `nan` without raising; that path is unreachable
through `optimal_passage`, which fails earlier inside `issafe`, and
falls under the vacuous equal-length case here.) -/
noncomputable def routeUpwind (route : List Summary) : Option ℝ :=
  let ls := route.map fun x => x.pct_upwind
  if ∀ l ∈ ls, l.length = (ls.headD []).length then
    some (listMean ((ls.flatten).map fun b => if b then (1 : ℝ) else 0))
  else none

/-- Lines 199-206: the idealness of one candidate's summaries, relative
to the means of `hours` and `distance` across all candidates (safe or
not); `none` propagates the `np.mean` failure on ragged `pct_upwind`
lists. -/
noncomputable def idealness (routes : List (LatLon × List Summary))
    (route : List Summary) : Option ℝ :=
  let avg_times := listMean (routes.map fun xr => routeTime xr.2)
  let avg_distances := listMean (routes.map fun xr => routeDist xr.2)
  (routeUpwind route).map fun pct_upwind =>
    (routeTime route - avg_times) / avg_times +
      (avg_distances / routeDist route - 1) + pct_upwind

/-- `np.argmin`: the index of the first occurrence of the minimum of a
list (0 for the empty list, whose lookup then fails as `np.argmin`
would). -/
noncomputable def argminIdx : List ℝ → ℕ
  | [] => 0
  | [_] => 0
  | x :: y :: r => if x ≤ listMinD y r then 0 else argminIdx (y :: r) + 1

/-- `optimal_passage(start, end, start_date, wx_fields, resol)` (lines
179-209): build the candidate summaries, filter the safe ones, and
return the safe candidate of minimal idealness
(`safe_routes[np.argmin(idealness)][0]`); the idealness list
comprehension on line 207 evaluates `idealness` for each safe route in
order, so its `np.mean` failure propagates; `none` models an exception
escaping to the caller, in particular that `TypeError` or the
`ValueError` of `np.argmin([])` when no candidate is safe. -/
noncomputable def optimal_passage (nav : NavOracle) (windOf : ℝ → ℝ → Wind)
    (start end_ : LatLon) (start_date : ℤ) (fields : List WxField) (resol : ℕ) :
    Option LatLon :=
  (optimalRoutes nav windOf start end_ start_date fields resol).bind fun routes =>
    (safeFilter routes).bind fun safe =>
      (safe.mapM fun xr => idealness routes xr.2).bind fun ideal =>
        (safe.get? (argminIdx ideal)).map fun xr => xr.1

/-- Modelled from the spec (§4.1): the achievable fraction — 1.0 beyond
the pointing limit, else `0.5 + 0.5·(deg_off_wind / pointing_limit)`. -/
noncomputable def spec_fraction (deg_off_wind : ℝ) : ℝ :=
  if deg_off_wind > MAX_POINTING then 1.0
  else 0.5 + 0.5 * (deg_off_wind / MAX_POINTING)

/-- Modelled from the spec (§4.1): the reference piecewise polar —
`deg_off_wind = |wind.direction − bearing|` folded into `[0, π]` (if
`> π`, use `2π − deg_off_wind`); ramp branch on `(W_min, W_req]`,
plateau on `(W_req, W_max]`, zero otherwise. -/
noncomputable def spec_polar (wind : Wind) (bearing : ℝ) : ℝ :=
  let deg_off_wind := foldPi |wind.dir - bearing|
  if MIN_WIND_SPEED < wind.speed ∧ wind.speed ≤ REQ_WIND_SPEED then
    spec_fraction deg_off_wind * MAX_BOAT_SPEED *
      Real.sqrt ((wind.speed - MIN_WIND_SPEED) / (REQ_WIND_SPEED - MIN_WIND_SPEED))
  else if REQ_WIND_SPEED < wind.speed ∧ wind.speed ≤ MAX_WIND_SPEED then
    spec_fraction deg_off_wind * MAX_BOAT_SPEED
  else 0

section Equations

variable (nav : NavOracle) (windOf : ℝ → ℝ → Wind) (wxf : ℤ → LatLon → ℝ × ℝ)

/-- `simLoop` on an empty waypoint queue: normal termination. -/
theorem simLoop_nil (rest : List ℤ) (st : SimState) :
    simLoop nav windOf wxf [] rest st = ⟨[], false, []⟩ := by
  rw [simLoop.eq_def]

/-- `simLoop` when the current location equals the target: the `while`
guard is false and the `for` loop advances to the next waypoint. -/
theorem simLoop_skip {st : SimState} {d : LatLon} (ds : List LatLon)
    (rest : List ℤ) (h : st.here = d) :
    simLoop nav windOf wxf (d :: ds) rest st = simLoop nav windOf wxf ds rest st := by
  rw [simLoop.eq_def]
  dsimp only
  rw [if_pos h]

/-- `simLoop`, arrival branch (lines 142-147): the step distance strictly
exceeds the remaining distance. -/
theorem simLoop_reached {st : SimState} {d : LatLon} (ds : List LatLon)
    (rest : List ℤ) (hne : ¬st.here = d)
    (hgt : stepDist nav windOf wxf st d > nav.distance st.here d) :
    simLoop nav windOf wxf (d :: ds) rest st =
      consLeg
        ⟨stepCourse nav windOf wxf st d, st.now + reqTime nav windOf wxf st d,
          stepWind windOf wxf st, nav.distance st.here d,
          stepRelWind nav windOf wxf st d⟩
        (simLoop nav windOf wxf ds rest
          ⟨d, st.now + reqTime nav windOf wxf st d, st.fcst, st.soon,
            st.soon - (st.now + reqTime nav windOf wxf st d)⟩) := by
  cases rest with
  | nil =>
    rw [simLoop.eq_def]
    dsimp only
    rw [if_neg hne, if_pos hgt]
  | cons t ts =>
    rw [simLoop.eq_def]
    dsimp only
    rw [if_neg hne, if_pos hgt]

/-- `simLoop`, advance branch with an exhausted iterator: the
`StopIteration` of line 153 ends the run before the `yield`. -/
theorem simLoop_stop {st : SimState} {d : LatLon} (ds : List LatLon)
    (hne : ¬st.here = d)
    (hle : ¬stepDist nav windOf wxf st d > nav.distance st.here d) :
    simLoop nav windOf wxf (d :: ds) [] st = ⟨[], true, d :: ds⟩ := by
  rw [simLoop.eq_def]
  dsimp only
  rw [if_neg hne, if_neg hle]

/-- `simLoop`, advance branch (lines 148-153) with a further timestamp
available. -/
theorem simLoop_advance {st : SimState} {d : LatLon} (ds : List LatLon)
    (t : ℤ) (ts : List ℤ) (hne : ¬st.here = d)
    (hle : ¬stepDist nav windOf wxf st d > nav.distance st.here d) :
    simLoop nav windOf wxf (d :: ds) (t :: ts) st =
      consLeg
        ⟨stepCourse nav windOf wxf st d, st.soon, stepWind windOf wxf st,
          stepDist nav windOf wxf st d, stepRelWind nav windOf wxf st d⟩
        (simLoop nav windOf wxf (d :: ds) ts
          ⟨nav.path st.here (nav.bearing st.here d) (stepDist nav windOf wxf st d),
            st.soon, st.soon, t, t - st.soon⟩) := by
  rw [simLoop.eq_def]
  dsimp only
  rw [if_neg hne, if_neg hle]

end Equations

/-- `hours` of a non-negative timedelta is non-negative. -/
theorem hours_nonneg {td : ℤ} (h : 0 ≤ td) : 0 ≤ hours td := by
  unfold hours SECONDS_IN_HOUR
  have h1 : 0 ≤ td.ediv 86400 := Int.ediv_nonneg h (by norm_num)
  have h2 : 0 ≤ td.emod 86400 := Int.emod_nonneg td (by norm_num)
  have h3 : 0 ≤ (td.emod 86400).ediv 3600 := Int.ediv_nonneg h2 (by norm_num)
  linarith

/-- `hours` truncates: `hours td` whole hours never exceed `td` seconds. -/
theorem hours_mul_le (td : ℤ) : hours td * 3600 ≤ td := by
  unfold hours SECONDS_IN_HOUR
  have e1 : 86400 * (td.ediv 86400) + td.emod 86400 = td := Int.ediv_add_emod td 86400
  have e2 : 3600 * ((td.emod 86400).ediv 3600) + (td.emod 86400).emod 3600
      = td.emod 86400 := Int.ediv_add_emod _ 3600
  have h2 : 0 ≤ (td.emod 86400).emod 3600 := Int.emod_nonneg _ (by norm_num)
  linarith

/-- `pyInt` on a non-negative float is the floor. -/
theorem pyInt_of_nonneg {x : ℝ} (h : 0 ≤ x) : pyInt x = ⌊x⌋ := if_pos h

/-- `directional_max_speed` is the spec's achievable fraction times the
hull speed. -/
theorem directional_max_speed_eq_fraction (d : ℝ) :
    directional_max_speed d = spec_fraction d * MAX_BOAT_SPEED := by
  unfold directional_max_speed spec_fraction
  split_ifs with h
  · norm_num
  · ring

/-- C3.  For every wind and bearing, `boat_speed` coincides with the
piecewise reference polar of the spec (§4.1): deg-off-wind folded at π,
achievable fraction 1 beyond the pointing limit and
`0.5 + 0.5·(deg/limit)` inside it, square-root ramp on
`(W_min, W_req]`, plateau on `(W_req, W_max]`, zero otherwise. -/
theorem boat_speed_eq_spec_polar (wind : Wind) (bearing : ℝ) :
    boat_speed wind bearing = spec_polar wind bearing := by
  unfold boat_speed spec_polar
  by_cases h1 : wind.speed > MIN_WIND_SPEED ∧ wind.speed ≤ REQ_WIND_SPEED
  · rw [if_pos h1, if_pos h1, directional_max_speed_eq_fraction]
  · rw [if_neg h1, if_neg h1]
    by_cases h2 : wind.speed > MIN_WIND_SPEED ∧ wind.speed ≤ MAX_WIND_SPEED
    · have h2' : REQ_WIND_SPEED < wind.speed ∧ wind.speed ≤ MAX_WIND_SPEED := by
        refine ⟨?_, h2.2⟩
        by_contra hc
        push_neg at hc
        exact h1 ⟨h2.1, hc⟩
      rw [if_pos h2, if_pos h2', directional_max_speed_eq_fraction]
    · have h2' : ¬(REQ_WIND_SPEED < wind.speed ∧ wind.speed ≤ MAX_WIND_SPEED) := by
        intro hc
        have hmin : MIN_WIND_SPEED < wind.speed := by
          have : MIN_WIND_SPEED < REQ_WIND_SPEED := by
            norm_num [MIN_WIND_SPEED, REQ_WIND_SPEED]
          linarith [hc.1]
        exact h2 ⟨hmin, hc.2⟩
      rw [if_neg h2, if_neg h2']

/-- For directions within one revolution of the bearing, the folded
angle is non-negative. -/
theorem foldPi_nonneg {x : ℝ} (h0 : 0 ≤ x) (h : x ≤ 2 * Real.pi) :
    0 ≤ foldPi x := by
  unfold foldPi
  split_ifs with hx
  · linarith
  · exact h0

/-- `directional_max_speed` of a non-negative angle is non-negative. -/
theorem directional_max_speed_nonneg {d : ℝ} (hd : 0 ≤ d) :
    0 ≤ directional_max_speed d := by
  unfold directional_max_speed MAX_BOAT_SPEED MAX_POINTING
  split_ifs with h
  · norm_num
  · have hmp : (0 : ℝ) < 0.3490658503988659 := by norm_num
    have hdiv : 0 ≤ 0.5 * d / 0.3490658503988659 :=
      div_nonneg (by linarith) (le_of_lt hmp)
    nlinarith

/-- C7.  For every fixed bearing and wind direction (within one
revolution of each other, so that the folded angle is a genuine angle in
`[0, π]`), `boat_speed` is continuous at `wind.speed = W_req` — the
value of the sqrt-ramp branch at `W_req` equals the plateau branch's
value at any plateau wind speed — and is monotonically non-decreasing in
`wind.speed` on `(W_min, W_req]`. -/
theorem boat_speed_continuous_monotone (dir b : ℝ)
    (hb : |dir - b| ≤ 2 * Real.pi) :
    (∀ s, REQ_WIND_SPEED < s → s ≤ MAX_WIND_SPEED →
      boat_speed ⟨REQ_WIND_SPEED, dir⟩ b = boat_speed ⟨s, dir⟩ b) ∧
    (∀ s1 s2, MIN_WIND_SPEED < s1 → s1 ≤ s2 → s2 ≤ REQ_WIND_SPEED →
      boat_speed ⟨s1, dir⟩ b ≤ boat_speed ⟨s2, dir⟩ b) := by
  have hdms : 0 ≤ directional_max_speed (foldPi |dir - b|) :=
    directional_max_speed_nonneg (foldPi_nonneg (abs_nonneg _) hb)
  constructor
  · intro s hs1 hs2
    unfold boat_speed
    dsimp only
    have hreq : MIN_WIND_SPEED < REQ_WIND_SPEED := by
      norm_num [MIN_WIND_SPEED, REQ_WIND_SPEED]
    rw [if_pos ⟨hreq, le_refl _⟩]
    rw [if_neg (by intro hc; linarith [hc.2]), if_pos ⟨by linarith [hreq], hs2⟩]
    have hone : (REQ_WIND_SPEED - MIN_WIND_SPEED) /
        (REQ_WIND_SPEED - MIN_WIND_SPEED) = 1 := by
      norm_num [MIN_WIND_SPEED, REQ_WIND_SPEED]
    rw [hone, Real.sqrt_one, mul_one]
  · intro s1 s2 h1 h2 h3
    unfold boat_speed
    dsimp only
    rw [if_pos ⟨h1, le_trans h2 h3⟩, if_pos ⟨lt_of_lt_of_le h1 h2, h3⟩]
    refine mul_le_mul_of_nonneg_left (Real.sqrt_le_sqrt ?_) hdms
    have hden : (0 : ℝ) < REQ_WIND_SPEED - MIN_WIND_SPEED := by
      norm_num [MIN_WIND_SPEED, REQ_WIND_SPEED]
    gcongr


/-- Whenever a `simLoop` run finishes with waypoints still pending, the
`StopIteration` handler ran: the exhaustion flag is set. -/
theorem simLoop_pending_exhausted (nav : NavOracle) (windOf : ℝ → ℝ → Wind)
    (wxf : ℤ → LatLon → ℝ × ℝ) :
    ∀ (q : List LatLon) (rest : List ℤ) (st : SimState),
      (simLoop nav windOf wxf q rest st).pending ≠ [] →
      (simLoop nav windOf wxf q rest st).exhausted = true := by
  intro q rest st
  generalize hn : q.length + rest.length = n
  induction n using Nat.strong_induction_on generalizing q rest st with
  | _ n ih =>
    match q with
    | [] =>
      rw [simLoop_nil]
      intro h
      simp at h
    | d :: ds =>
      by_cases hhe : st.here = d
      · rw [simLoop_skip nav windOf wxf ds rest hhe]
        refine ih (ds.length + rest.length) ?_ ds rest st rfl
        subst hn
        simp only [List.length_cons]
        omega
      · by_cases hgt : stepDist nav windOf wxf st d > nav.distance st.here d
        · rw [simLoop_reached nav windOf wxf ds rest hhe hgt]
          simp only [consLeg]
          refine ih (ds.length + rest.length) ?_ ds rest _ rfl
          subst hn
          simp only [List.length_cons]
          omega
        · match rest with
          | [] =>
            rw [simLoop_stop nav windOf wxf ds hhe hgt]
            intro
            rfl
          | t :: ts =>
            rw [simLoop_advance nav windOf wxf ds t ts hhe hgt]
            simp only [consLeg]
            refine ih ((d :: ds).length + ts.length) ?_ (d :: ds) ts _ rfl
            subst hn
            simp only [List.length_cons]
            omega

/-- Every leg produced by a `simLoop` run started in a consistent state
(sorted remaining time axis, `dt = soon - now ≥ 0`) under a
non-negative-distance oracle has speed at least one knot and
non-negative distance. -/
theorem simLoop_leg_bounds (nav : NavOracle) (windOf : ℝ → ℝ → Wind)
    (wxf : ℤ → LatLon → ℝ × ℝ) (hd : ∀ a b, 0 ≤ nav.distance a b) :
    ∀ (q : List LatLon) (rest : List ℤ) (st : SimState),
      List.Sorted (· ≤ ·) (st.soon :: rest) → st.dt = st.soon - st.now →
      0 ≤ st.dt →
      ∀ leg ∈ (simLoop nav windOf wxf q rest st).legs,
        1 ≤ leg.course.speed ∧ 0 ≤ leg.distance := by
  intro q rest st
  generalize hn : q.length + rest.length = n
  induction n using Nat.strong_induction_on generalizing q rest st with
  | _ n ih =>
    intro hsort hdt hdt0
    match q with
    | [] =>
      rw [simLoop_nil]
      intro leg hleg
      simp at hleg
    | d :: ds =>
      by_cases hhe : st.here = d
      · rw [simLoop_skip nav windOf wxf ds rest hhe]
        refine ih (ds.length + rest.length) ?_ ds rest st rfl hsort hdt hdt0
        subst hn
        simp only [List.length_cons]
        omega
      · by_cases hgt : stepDist nav windOf wxf st d > nav.distance st.here d
        · rw [simLoop_reached nav windOf wxf ds rest hhe hgt]
          have hspeed : 1 ≤ stepSpeed nav windOf wxf st d := by
            unfold stepSpeed
            exact le_max_of_le_right (by norm_num)
          have hH : (0 : ℤ) ≤ hours st.dt := hours_nonneg hdt0
          have hH0 : (0 : ℝ) ≤ (hours st.dt : ℝ) := by exact_mod_cast hH
          have hsec : (0 : ℝ) ≤ (SECONDS_IN_HOUR : ℝ) := by
            norm_num [SECONDS_IN_HOUR]
          have hrem : 0 ≤ nav.distance st.here d := hd _ _
          have hdistpos : 0 < stepDist nav windOf wxf st d :=
            lt_of_le_of_lt hrem hgt
          have hx0 : 0 ≤ (hours st.dt : ℝ) * (SECONDS_IN_HOUR : ℝ) *
              nav.distance st.here d / stepDist nav windOf wxf st d := by
            apply div_nonneg _ hdistpos.le
            positivity
          have hreqle : reqTime nav windOf wxf st d ≤ st.dt := by
            unfold reqTime
            rw [pyInt_of_nonneg hx0]
            have hub : (hours st.dt : ℝ) * (SECONDS_IN_HOUR : ℝ) *
                nav.distance st.here d / stepDist nav windOf wxf st d ≤
                (hours st.dt : ℝ) * (SECONDS_IN_HOUR : ℝ) := by
              rw [div_le_iff₀ hdistpos]
              nlinarith [mul_nonneg (mul_nonneg hH0 hsec) (sub_nonneg.mpr hgt.le)]
            have hses : (hours st.dt : ℝ) * (SECONDS_IN_HOUR : ℝ) ≤ (st.dt : ℝ) := by
              have h1 := hours_mul_le st.dt
              have hcast : ((hours st.dt * 3600 : ℤ) : ℝ) ≤ ((st.dt : ℤ) : ℝ) := by
                exact_mod_cast h1
              push_cast at hcast
              norm_num [SECONDS_IN_HOUR]
              linarith
            calc ⌊(hours st.dt : ℝ) * (SECONDS_IN_HOUR : ℝ) *
                nav.distance st.here d / stepDist nav windOf wxf st d⌋
                ≤ ⌊(st.dt : ℝ)⌋ := Int.floor_mono (le_trans hub hses)
              _ = st.dt := Int.floor_intCast st.dt
          intro leg hleg
          simp only [consLeg, List.mem_cons] at hleg
          rcases hleg with hfst | htail
          · subst hfst
            exact ⟨hspeed, hrem⟩
          · refine ih (ds.length + rest.length) ?_ ds rest
              ⟨d, st.now + reqTime nav windOf wxf st d, st.fcst, st.soon,
                st.soon - (st.now + reqTime nav windOf wxf st d)⟩ rfl
              hsort rfl ?_ leg htail
            · subst hn
              simp only [List.length_cons]
              omega
            · show 0 ≤ st.soon - (st.now + reqTime nav windOf wxf st d)
              omega
        · match rest with
          | [] =>
            rw [simLoop_stop nav windOf wxf ds hhe hgt]
            intro leg hleg
            simp at hleg
          | t :: ts =>
            rw [simLoop_advance nav windOf wxf ds t ts hhe hgt]
            have hspeed : 1 ≤ stepSpeed nav windOf wxf st d := by
              unfold stepSpeed
              exact le_max_of_le_right (by norm_num)
            have hH : (0 : ℤ) ≤ hours st.dt := hours_nonneg hdt0
            rcases List.sorted_cons.mp hsort with ⟨hle, hsort2⟩
            intro leg hleg
            simp only [consLeg, List.mem_cons] at hleg
            rcases hleg with hfst | htail
            · subst hfst
              refine ⟨hspeed, ?_⟩
              show 0 ≤ stepDist nav windOf wxf st d
              unfold stepDist
              have hH0 : (0 : ℝ) ≤ (hours st.dt : ℝ) := by exact_mod_cast hH
              have hsp0 : (0 : ℝ) ≤ stepSpeed nav windOf wxf st d := by linarith
              positivity
            · refine ih ((d :: ds).length + ts.length) ?_ (d :: ds) ts
                ⟨nav.path st.here (nav.bearing st.here d)
                    (stepDist nav windOf wxf st d),
                  st.soon, st.soon, t, t - st.soon⟩ rfl hsort2 rfl ?_ leg htail
              · subst hn
                simp only [List.length_cons]
                omega
              · show 0 ≤ t - st.soon
                have := hle t (by simp)
                omega

/-- C2 (amended).  Provided the sorted time axis has at least two
timestamps (so the stepping loop is actually entered), whenever a
simulation run ends with waypoints still pending — the time axis was
exhausted before all waypoints were reached — the run returns normally
(`some r`, no exception) with the data-exhaustion condition flagged;
the legs yielded before the exhaustion are exactly `r.legs`. -/
theorem simulate_exhaustion_flagged (nav : NavOracle) (windOf : ℝ → ℝ → Wind)
    (waypoints : List LatLon) (sd : ℤ) (times : List ℤ)
    (wxf : ℤ → LatLon → ℝ × ℝ) (r : SimResult)
    (hlen : 2 ≤ (List.insertionSort (· ≤ ·) times).length)
    (hr : simulate_passage nav windOf waypoints sd times wxf = some r)
    (hpend : r.pending ≠ []) : r.exhausted = true := by
  unfold simulate_passage pyCopy pyPop0 at hr
  cases waypoints with
  | nil => simp at hr
  | cons a q =>
    dsimp only at hr
    cases hts : List.insertionSort (· ≤ ·) times with
    | nil =>
      rw [hts] at hr
      simp at hr
    | cons t0 l1 =>
      cases l1 with
      | nil =>
        rw [hts] at hlen
        simp at hlen
      | cons t1 rest =>
        rw [hts] at hr
        simp only [Option.some.injEq] at hr
        subst hr
        exact simLoop_pending_exhausted nav windOf wxf q rest _ hpend

/-- C8.  Under a navigation oracle whose distances are non-negative,
every leg emitted by `simulate_passage` carries a course speed of at
least 1 knot (the floor of line 134) and a non-negative recorded
distance. -/
theorem simulate_legs_speed_dist_bounds (nav : NavOracle) (windOf : ℝ → ℝ → Wind)
    (waypoints : List LatLon) (sd : ℤ) (times : List ℤ)
    (wxf : ℤ → LatLon → ℝ × ℝ) (r : SimResult)
    (hd : ∀ a b, 0 ≤ nav.distance a b)
    (hr : simulate_passage nav windOf waypoints sd times wxf = some r) :
    ∀ leg ∈ r.legs, 1 ≤ leg.course.speed ∧ 0 ≤ leg.distance := by
  unfold simulate_passage pyCopy pyPop0 at hr
  cases waypoints with
  | nil => simp at hr
  | cons a q =>
    dsimp only at hr
    cases hts : List.insertionSort (· ≤ ·) times with
    | nil =>
      rw [hts] at hr
      simp at hr
    | cons t0 l1 =>
      cases l1 with
      | nil =>
        rw [hts] at hr
        simp only [Option.some.injEq] at hr
        subst hr
        intro leg hleg
        simp at hleg
      | cons t1 rest =>
        rw [hts] at hr
        simp only [Option.some.injEq] at hr
        subst hr
        have hs : List.Sorted (· ≤ ·) (t0 :: t1 :: rest) := by
          rw [← hts]
          exact List.sorted_insertionSort (· ≤ ·) times
        rcases List.sorted_cons.mp hs with ⟨hle01, hs1⟩
        refine simLoop_leg_bounds nav windOf wxf hd q rest
          ⟨a, t0, t0, t1, t1 - t0⟩ hs1 rfl ?_
        show 0 ≤ t1 - t0
        have := hle01 t1 (by simp)
        omega

/-- C9 (amended).  With exactly one timestamp on the time axis, the
second read of the time iterator (line 116) raises `StopIteration`
before the `try` block: the generator ends silently with no legs, no
error to the caller, and no data-exhaustion report. -/
theorem simulate_single_timestamp_empty (nav : NavOracle) (windOf : ℝ → ℝ → Wind)
    (a : LatLon) (q : List LatLon) (sd t : ℤ) (wxf : ℤ → LatLon → ℝ × ℝ) :
    simulate_passage nav windOf (a :: q) sd [t] wxf = some ⟨[], false, q⟩ := rfl

/-- C10.  `simulate_passage` copies the waypoint list and the
weather-field mapping on entry (lines 104-105) and pops only the copy
(line 106), so the caller-visible arguments after a drained run are the
original waypoint sequence and the original key list. -/
theorem simulate_frame_preserves_args (nav : NavOracle) (windOf : ℝ → ℝ → Wind)
    (waypoints : List LatLon) (sd : ℤ) (times : List ℤ)
    (wxf : ℤ → LatLon → ℝ × ℝ) :
    (simulate_passage_frame nav windOf waypoints sd times wxf).2 =
      (waypoints, times) := rfl

/-- C1 (amended).  For every simulation step whose coverable distance
`speed · hours(dt)` is *strictly greater* than the remaining rhumbline
distance, the target is reached within the step: the yielded leg records
exactly the remaining distance, the time cursor advances by the
*truncated* prorated amount `int(hours(dt) · 3600 · remaining /
distance)` seconds (not by the full `dt`), the location becomes the
target, and the simulation continues with the target popped off the
waypoint queue. -/
theorem simulate_reached_step (nav : NavOracle) (windOf : ℝ → ℝ → Wind)
    (wxf : ℤ → LatLon → ℝ × ℝ) (st : SimState) (d : LatLon)
    (ds : List LatLon) (rest : List ℤ) (hne : ¬st.here = d)
    (hgt : stepDist nav windOf wxf st d > nav.distance st.here d) :
    simLoop nav windOf wxf (d :: ds) rest st =
      consLeg
        ⟨stepCourse nav windOf wxf st d,
          st.now + pyInt ((hours st.dt : ℝ) * (SECONDS_IN_HOUR : ℝ) *
            nav.distance st.here d / stepDist nav windOf wxf st d),
          stepWind windOf wxf st, nav.distance st.here d,
          stepRelWind nav windOf wxf st d⟩
        (simLoop nav windOf wxf ds rest
          ⟨d,
            st.now + pyInt ((hours st.dt : ℝ) * (SECONDS_IN_HOUR : ℝ) *
              nav.distance st.here d / stepDist nav windOf wxf st d),
            st.fcst, st.soon,
            st.soon - (st.now + pyInt ((hours st.dt : ℝ) *
              (SECONDS_IN_HOUR : ℝ) * nav.distance st.here d /
              stepDist nav windOf wxf st d))⟩) := by
  rw [simLoop_reached nav windOf wxf ds rest hne hgt]
  rfl

/-- Appending to the accumulator distributes over `foldl min`. -/
theorem foldl_min_min (l : List ℝ) :
    ∀ x y : ℝ, l.foldl min (min x y) = min x (l.foldl min y) := by
  induction l with
  | nil => intro x y; rfl
  | cons a l ih =>
    intro x y
    simp only [List.foldl_cons]
    rw [min_assoc, ih]

/-- `listMinD` of a cons in terms of the tail. -/
theorem listMinD_cons (x y : ℝ) (r : List ℝ) :
    listMinD x (y :: r) = min x (listMinD y r) := by
  unfold listMinD
  simp only [List.foldl_cons]
  exact foldl_min_min r x y

/-- The running minimum is at most the seed. -/
theorem listMinD_le_head (x : ℝ) (xs : List ℝ) : listMinD x xs ≤ x := by
  induction xs generalizing x with
  | nil => exact le_refl x
  | cons y r ih =>
    rw [listMinD_cons]
    exact min_le_left x (listMinD y r)

/-- The running minimum is at most every member. -/
theorem listMinD_le_mem (x : ℝ) (xs : List ℝ) :
    ∀ a ∈ xs, listMinD x xs ≤ a := by
  induction xs generalizing x with
  | nil => intro a ha; simp at ha
  | cons y r ih =>
    intro a ha
    rw [listMinD_cons]
    rcases List.mem_cons.mp ha with h | h
    · subst h
      exact le_trans (min_le_right _ _) (listMinD_le_head a r)
    · exact le_trans (min_le_right _ _) (ih y a h)

/-- `argminIdx` of a nonempty list is a valid index. -/
theorem argminIdx_lt_length : ∀ (l : List ℝ), l ≠ [] → argminIdx l < l.length := by
  intro l
  induction l with
  | nil => intro h; exact absurd rfl h
  | cons x xs ih =>
    intro _
    cases xs with
    | nil => simp [argminIdx]
    | cons y r =>
      unfold argminIdx
      split_ifs with h
      · simp
      · have := ih (by simp)
        simp only [List.length_cons] at this ⊢
        omega

/-- The entry at `argminIdx` is the running minimum of the list. -/
theorem argminIdx_getD_eq : ∀ (x : ℝ) (xs : List ℝ),
    (x :: xs).getD (argminIdx (x :: xs)) 0 = listMinD x xs := by
  intro x xs
  induction xs generalizing x with
  | nil => rfl
  | cons y r ih =>
    unfold argminIdx
    split_ifs with h
    · simp only [List.getD]
      rw [listMinD_cons]
      exact (min_eq_left h).symm
    · rw [listMinD_cons]
      push_neg at h
      have h2 : (x :: y :: r).getD (argminIdx (y :: r) + 1) 0 =
          (y :: r).getD (argminIdx (y :: r)) 0 := rfl
      rw [h2, ih y]
      exact (min_eq_right h.le).symm

/-- The entry a valid index selects by `getD` is a member. -/
theorem getD_mem_of_lt {α : Type} (d : α) :
    ∀ (l : List α) (i : ℕ), i < l.length → l.getD i d ∈ l := by
  intro l
  induction l with
  | nil => intro i hi; simp at hi
  | cons x xs ih =>
    intro i hi
    cases i with
    | zero => simp
    | succ k =>
      have hk : k < xs.length := by
        simp only [List.length_cons] at hi
        omega
      exact List.mem_cons_of_mem x (ih k hk)

/-- The entry at `argminIdx` is minimal. -/
theorem argminIdx_min (l : List ℝ) :
    ∀ j, j < l.length → l.getD (argminIdx l) 0 ≤ l.getD j 0 := by
  cases l with
  | nil => intro j hj; simp at hj
  | cons x xs =>
    intro j hj
    rw [argminIdx_getD_eq x xs]
    cases j with
    | zero => exact listMinD_le_head x xs
    | succ k =>
      have hk : k < xs.length := by
        simp only [List.length_cons] at hj
        omega
      have hmem : xs.getD k 0 ∈ xs := getD_mem_of_lt 0 xs k hk
      exact listMinD_le_mem x xs _ hmem

/-- The two-element-or-more equation of `argminIdx`. -/
theorem argminIdx_cons2 (x y : ℝ) (r : List ℝ) :
    argminIdx (x :: y :: r) =
      if x ≤ listMinD y r then 0 else argminIdx (y :: r) + 1 := rfl

/-- Every entry strictly before `argminIdx` is strictly larger: ties are
broken by first occurrence. -/
theorem argminIdx_first : ∀ (l : List ℝ), ∀ j, j < argminIdx l →
    l.getD (argminIdx l) 0 < l.getD j 0 := by
  intro l
  induction l with
  | nil => intro j hj; simp [argminIdx] at hj
  | cons x xs ih =>
    cases xs with
    | nil => intro j hj; simp [argminIdx] at hj
    | cons y r =>
      intro j hj
      by_cases h : x ≤ listMinD y r
      · have ha : argminIdx (x :: y :: r) = 0 := by
          rw [argminIdx_cons2, if_pos h]
        rw [ha] at hj
        simp at hj
      · have ha : argminIdx (x :: y :: r) = argminIdx (y :: r) + 1 := by
          rw [argminIdx_cons2, if_neg h]
        rw [ha] at hj ⊢
        push_neg at h
        cases j with
        | zero =>
          have h2 : (x :: y :: r).getD (argminIdx (y :: r) + 1) 0 =
              (y :: r).getD (argminIdx (y :: r)) 0 := rfl
          rw [h2, argminIdx_getD_eq y r]
          exact h
        | succ k =>
          have hk : k < argminIdx (y :: r) := by omega
          have h2 : (x :: y :: r).getD (argminIdx (y :: r) + 1) 0 =
              (y :: r).getD (argminIdx (y :: r)) 0 := rfl
          have h3 : (x :: y :: r).getD (k + 1) 0 = (y :: r).getD k 0 := rfl
          rw [h2, h3]
          exact ih k hk

/-- A valid index makes `get?` agree with `getD`. -/
theorem get?_eq_some_getD {α : Type} (d : α) :
    ∀ (l : List α) (i : ℕ), i < l.length → l.get? i = some (l.getD i d) := by
  intro l
  induction l with
  | nil => intro i hi; simp at hi
  | cons x xs ih =>
    intro i hi
    cases i with
    | zero => rfl
    | succ k =>
      have hk : k < xs.length := by
        simp only [List.length_cons] at hi
        omega
      exact ih k hk

/-- If every candidate's safety check evaluates to unsafe, the safe list
is empty. -/
theorem safeFilter_all_unsafe :
    ∀ (routes : List (LatLon × List Summary)),
      (∀ xr ∈ routes, issafeRoute xr.2 = some false) →
      safeFilter routes = some [] := by
  intro routes
  induction routes with
  | nil => intro _; rfl
  | cons xr rs ih =>
    intro h
    unfold safeFilter
    rw [h xr (List.mem_cons_self xr rs)]
    rw [ih fun y hy => h y (List.mem_cons_of_mem xr hy)]
    rfl

/-- C4.  If the candidate summaries were computed and every candidate is
unsafe (its safety check reports max wind above `W_max`), then
`optimal_passage` surfaces the no-feasible-route condition to the
caller — the `ValueError` of `np.argmin` on the empty safe list, an
error rather than a route — and never returns a candidate. -/
theorem optimal_passage_none_of_unsafe (nav : NavOracle) (windOf : ℝ → ℝ → Wind)
    (start end_ : LatLon) (sd : ℤ) (fields : List WxField) (resol : ℕ)
    (routes : List (LatLon × List Summary))
    (hroutes : optimalRoutes nav windOf start end_ sd fields resol = some routes)
    (hnosafe : ∀ xr ∈ routes, issafeRoute xr.2 = some false) :
    optimal_passage nav windOf start end_ sd fields resol = none := by
  unfold optimal_passage
  rw [hroutes, Option.some_bind, safeFilter_all_unsafe routes hnosafe,
    Option.some_bind]
  rfl

/-- For the `Option` monad, a successful `mapM` yields a list of the
same length. -/
theorem mapM_option_length {α β : Type} (f : α → Option β) :
    ∀ (l : List α) (res : List β), l.mapM f = some res → res.length = l.length := by
  intro l
  induction l with
  | nil =>
    intro res h
    simp only [List.mapM_nil, Option.pure_def, Option.some.injEq] at h
    subst h
    rfl
  | cons a as ih =>
    intro res h
    rw [List.mapM_cons] at h
    cases hfa : f a with
    | none =>
      rw [hfa] at h
      simp at h
    | some b =>
      rw [hfa] at h
      cases hmas : as.mapM f with
      | none =>
        rw [hmas] at h
        simp at h
      | some bs =>
        rw [hmas] at h
        simp only [Option.pure_def, Option.bind_eq_bind, Option.some_bind,
          Option.some.injEq] at h
        subst h
        simp only [List.length_cons]
        rw [ih bs hmas]

/-- C5 (amended).  If the candidate summaries were computed, at least
one candidate is safe, and the per-candidate idealness computations all
succeeded (the `np.mean` of each safe candidate's nested `pct_upwind`
lists is defined, i.e. its ensemble members contributed equally many
legs), then `optimal_passage` returns the safe candidate at `argminIdx`
of the idealness list — with `idealness` built from the candidate's own
ensemble means of time, net distance and upwind fraction, normalized by
the `hours`/`distance` means across all candidates — and that index
carries the minimum idealness among safe candidates, ties broken by
first occurrence in generation order.  With ragged leg counts the
`np.mean` of line 205 raises instead and no candidate is returned. -/
theorem optimal_passage_selects_min_idealness (nav : NavOracle)
    (windOf : ℝ → ℝ → Wind) (start end_ : LatLon) (sd : ℤ)
    (fields : List WxField) (resol : ℕ)
    (routes safe : List (LatLon × List Summary)) (ideal : List ℝ)
    (hroutes : optimalRoutes nav windOf start end_ sd fields resol = some routes)
    (hsafe : safeFilter routes = some safe)
    (hideal : (safe.mapM fun xr => idealness routes xr.2) = some ideal)
    (hne : safe ≠ []) :
    optimal_passage nav windOf start end_ sd fields resol =
      some ((safe.getD (argminIdx ideal) default).1) ∧
    argminIdx ideal < safe.length ∧
    (∀ j, j < safe.length →
      ideal.getD (argminIdx ideal) 0 ≤ ideal.getD j 0) ∧
    (∀ j, j < argminIdx ideal →
      ideal.getD (argminIdx ideal) 0 < ideal.getD j 0) := by
  have hlen : ideal.length = safe.length := mapM_option_length _ safe ideal hideal
  have hidealne : ideal ≠ [] := by
    intro hcon
    apply hne
    cases safe with
    | nil => rfl
    | cons z zs =>
      rw [hcon] at hlen
      simp at hlen
  have hlt : argminIdx ideal < safe.length := by
    rw [← hlen]
    exact argminIdx_lt_length _ hidealne
  refine ⟨?_, hlt, ?_, ?_⟩
  · unfold optimal_passage
    rw [hroutes, Option.some_bind, hsafe, Option.some_bind, hideal,
      Option.some_bind]
    rw [get?_eq_some_getD default safe _ hlt]
    rfl
  · intro j hj
    exact argminIdx_min _ j (by rw [hlen]; exact hj)
  · intro j hj
    exact argminIdx_first _ j hj

/-- A concrete one-dimensional navigation oracle for the concrete runs:
bearing 0 everywhere, distance the absolute longitude difference, path
moving the longitude by the travelled distance. -/
noncomputable def navLin : NavOracle :=
  ⟨fun _ _ => 0, fun a b => |b.lon - a.lon|, fun a _ dd => ⟨a.lat, a.lon + dd⟩⟩

/-- A calm-weather wind construction: zero speed, direction zero. -/
def windOf0 : ℝ → ℝ → Wind := fun _ _ => ⟨0, 0⟩

/-- A storm wind construction: 100 knots, direction zero. -/
def windOf100 : ℝ → ℝ → Wind := fun _ _ => ⟨100, 0⟩

/-- A constant zero weather-field sample. -/
def wxf0 : ℤ → LatLon → ℝ × ℝ := fun _ _ => (0, 0)

/-- Concrete waypoint: the origin. -/
def ptA : LatLon := ⟨0, 0⟩

/-- Concrete waypoint one mile east of the origin. -/
def ptB : LatLon := ⟨0, 1⟩

/-- Concrete waypoint two miles east of the origin. -/
def ptD : LatLon := ⟨0, 2⟩

/-- Concrete waypoint five miles east of the origin. -/
def ptC : LatLon := ⟨0, 5⟩

/-- Zero wind is below `W_min`: the polar reports zero speed. -/
theorem boat_speed_zero_wind (dirv b : ℝ) : boat_speed ⟨0, dirv⟩ b = 0 := by
  unfold boat_speed
  dsimp only
  rw [if_neg, if_neg]
  · intro hc
    have := hc.1
    norm_num [MIN_WIND_SPEED] at this
  · intro hc
    have := hc.1
    norm_num [MIN_WIND_SPEED] at this

/-- A 100-knot wind is above `W_max`: the polar reports zero speed. -/
theorem boat_speed_storm_wind (dirv b : ℝ) : boat_speed ⟨100, dirv⟩ b = 0 := by
  unfold boat_speed
  dsimp only
  rw [if_neg, if_neg]
  · intro hc
    have := hc.2
    norm_num [MAX_WIND_SPEED] at this
  · intro hc
    have := hc.2
    norm_num [REQ_WIND_SPEED] at this

/-- The folded angle of zero is zero. -/
theorem foldPi_zero : foldPi 0 = 0 := by
  unfold foldPi
  rw [if_neg (not_lt.mpr Real.pi_pos.le)]

/-- In calm weather the 1-knot floor sets the course speed. -/
theorem stepSpeed_calm (st : SimState) (d : LatLon) :
    stepSpeed navLin windOf0 wxf0 st d = 1 := by
  unfold stepSpeed
  rw [show stepWind windOf0 wxf0 st = ⟨0, 0⟩ from rfl, boat_speed_zero_wind]
  norm_num

/-- In the storm field the 1-knot floor sets the course speed. -/
theorem stepSpeed_storm (st : SimState) (d : LatLon) :
    stepSpeed navLin windOf100 wxf0 st d = 1 := by
  unfold stepSpeed
  rw [show stepWind windOf100 wxf0 st = ⟨100, 0⟩ from rfl, boat_speed_storm_wind]
  norm_num

/-- Calm-run course record. -/
theorem stepCourse_calm (st : SimState) (d : LatLon) :
    stepCourse navLin windOf0 wxf0 st d = ⟨st.here, 1, 0, 0⟩ := by
  unfold stepCourse
  rw [stepSpeed_calm]
  rfl

/-- Storm-run course record. -/
theorem stepCourse_storm (st : SimState) (d : LatLon) :
    stepCourse navLin windOf100 wxf0 st d = ⟨st.here, 1, 0, 0⟩ := by
  unfold stepCourse
  rw [stepSpeed_storm]
  rfl

/-- Calm-run relative wind. -/
theorem stepRelWind_calm (st : SimState) (d : LatLon) :
    stepRelWind navLin windOf0 wxf0 st d = 0 := by
  unfold stepRelWind
  rw [stepCourse_calm]
  show foldPi |(0 : ℝ) - 0| = 0
  rw [show |(0 : ℝ) - 0| = 0 by norm_num, foldPi_zero]

/-- Storm-run relative wind. -/
theorem stepRelWind_storm (st : SimState) (d : LatLon) :
    stepRelWind navLin windOf100 wxf0 st d = 0 := by
  unfold stepRelWind
  rw [stepCourse_storm]
  show foldPi |(0 : ℝ) - 0| = 0
  rw [show |(0 : ℝ) - 0| = 0 by norm_num, foldPi_zero]

/-- Calm-run step distance is the whole-hour count of the timestep. -/
theorem stepDist_calm (st : SimState) (d : LatLon) :
    stepDist navLin windOf0 wxf0 st d = (hours st.dt : ℝ) := by
  unfold stepDist
  rw [stepSpeed_calm, one_mul]

/-- Storm-run step distance is the whole-hour count of the timestep. -/
theorem stepDist_storm (st : SimState) (d : LatLon) :
    stepDist navLin windOf100 wxf0 st d = (hours st.dt : ℝ) := by
  unfold stepDist
  rw [stepSpeed_storm, one_mul]

/-- The leg yielded by the concrete calm one-step runs. -/
def legA : Leg := ⟨⟨ptA, 1, 0, 0⟩, 3600, ⟨0, 0⟩, 1, 0⟩

/-- Concrete calm arrival run: two timestamps six-then-two hours apart,
destination one mile away, covered within the first step. -/
theorem run_S1 : simulate_passage navLin windOf0 [ptA, ptB] 0 [0, 7200] wxf0 =
    some ⟨[legA], false, []⟩ := by
  have hne : ¬(ptA = ptB) := by
    intro h
    have h2 := congrArg LatLon.lon h
    norm_num [ptA, ptB] at h2
  have hgt : stepDist navLin windOf0 wxf0 ⟨ptA, 0, 0, 7200, 7200⟩ ptB >
      navLin.distance ptA ptB := by
    rw [stepDist_calm]
    show ((hours 7200 : ℤ) : ℝ) > |ptB.lon - ptA.lon|
    rw [show hours 7200 = 2 from by decide]
    norm_num [ptA, ptB]
  have hreq : reqTime navLin windOf0 wxf0 ⟨ptA, 0, 0, 7200, 7200⟩ ptB = 3600 := by
    unfold reqTime
    rw [stepDist_calm]
    have harg : ((hours (SimState.dt ⟨ptA, 0, 0, 7200, 7200⟩) : ℤ) : ℝ) *
        (SECONDS_IN_HOUR : ℝ) *
        navLin.distance (SimState.here ⟨ptA, 0, 0, 7200, 7200⟩) ptB /
        ((hours (SimState.dt ⟨ptA, 0, 0, 7200, 7200⟩) : ℤ) : ℝ) = 3600 := by
      show ((hours 7200 : ℤ) : ℝ) * (SECONDS_IN_HOUR : ℝ) *
        |ptB.lon - ptA.lon| / ((hours 7200 : ℤ) : ℝ) = 3600
      rw [show hours 7200 = 2 from by decide]
      norm_num [ptA, ptB, SECONDS_IN_HOUR]
    rw [harg, pyInt_of_nonneg (by norm_num)]
    rw [show ((3600 : ℝ)) = ((3600 : ℤ) : ℝ) by norm_num, Int.floor_intCast]
  unfold simulate_passage pyCopy pyPop0
  dsimp only
  rw [show List.insertionSort (· ≤ ·) ([0, 7200] : List ℤ) = [0, 7200] from rfl]
  dsimp only
  rw [show (7200 : ℤ) - 0 = 7200 from by norm_num]
  rw [simLoop_reached navLin windOf0 wxf0 [] [] hne hgt, simLoop_nil,
    stepCourse_calm, stepRelWind_calm, hreq]
  show some (consLeg ⟨⟨ptA, 1, 0, 0⟩, 0 + 3600, ⟨0, 0⟩,
    |ptB.lon - ptA.lon|, 0⟩ ⟨[], false, []⟩) = some ⟨[legA], false, []⟩
  norm_num [consLeg, legA, ptA, ptB]

/-- Concrete calm exhaustion run: two timestamps, destination five miles
away, the iterator runs dry inside the advance branch. -/
theorem run_S2 : simulate_passage navLin windOf0 [ptA, ptC] 0 [0, 7200] wxf0 =
    some ⟨[], true, [ptC]⟩ := by
  have hne : ¬(ptA = ptC) := by
    intro h
    have h2 := congrArg LatLon.lon h
    norm_num [ptA, ptC] at h2
  have hle : ¬(stepDist navLin windOf0 wxf0 ⟨ptA, 0, 0, 7200, 7200⟩ ptC >
      navLin.distance ptA ptC) := by
    rw [stepDist_calm]
    show ¬(((hours 7200 : ℤ) : ℝ) > |ptC.lon - ptA.lon|)
    rw [show hours 7200 = 2 from by decide]
    norm_num [ptA, ptC]
  unfold simulate_passage pyCopy pyPop0
  dsimp only
  rw [show List.insertionSort (· ≤ ·) ([0, 7200] : List ℤ) = [0, 7200] from rfl]
  dsimp only
  rw [show (7200 : ℤ) - 0 = 7200 from by norm_num]
  rw [simLoop_stop navLin windOf0 wxf0 [] hne hle]

/-- Concrete calm boundary run: the coverable distance equals the
remaining distance exactly; the strict test sends the step into the
advance branch and the iterator then runs dry. -/
theorem run_S3 : simulate_passage navLin windOf0 [ptA, ptD] 0 [0, 7200] wxf0 =
    some ⟨[], true, [ptD]⟩ := by
  have hne : ¬(ptA = ptD) := by
    intro h
    have h2 := congrArg LatLon.lon h
    norm_num [ptA, ptD] at h2
  have hle : ¬(stepDist navLin windOf0 wxf0 ⟨ptA, 0, 0, 7200, 7200⟩ ptD >
      navLin.distance ptA ptD) := by
    rw [stepDist_calm]
    show ¬(((hours 7200 : ℤ) : ℝ) > |ptD.lon - ptA.lon|)
    rw [show hours 7200 = 2 from by decide]
    norm_num [ptA, ptD]
  unfold simulate_passage pyCopy pyPop0
  dsimp only
  rw [show List.insertionSort (· ≤ ·) ([0, 7200] : List ℤ) = [0, 7200] from rfl]
  dsimp only
  rw [show (7200 : ℤ) - 0 = 7200 from by norm_num]
  rw [simLoop_stop navLin windOf0 wxf0 [] hne hle]

/-- C1 (counterexample).  At a concrete step whose coverable distance
(2 miles in the 2-hour step at the 1-knot floor) equals the remaining
distance exactly, the claimed `distance ≥ remaining ⇒ arrival` behaviour
does not happen: the step takes the advance branch, no leg with
`distance = remaining` is recorded, the target stays pending (it is not
popped), and the run ends in data exhaustion instead of arrival. -/
theorem simulate_equal_distance_not_reached :
    stepDist navLin windOf0 wxf0 ⟨ptA, 0, 0, 7200, 7200⟩ ptD =
      navLin.distance ptA ptD ∧
    simulate_passage navLin windOf0 [ptA, ptD] 0 [0, 7200] wxf0 =
      some ⟨[], true, [ptD]⟩ := by
  constructor
  · rw [stepDist_calm]
    show ((hours 7200 : ℤ) : ℝ) = |ptD.lon - ptA.lon|
    rw [show hours 7200 = 2 from by decide]
    norm_num [ptA, ptD]
  · exact run_S3

/-- C1 (witness). -/
theorem simulate_reached_step_witness :
    ¬(SimState.here ⟨ptA, 0, 0, 7200, 7200⟩ = ptB) ∧
    stepDist navLin windOf0 wxf0 ⟨ptA, 0, 0, 7200, 7200⟩ ptB >
      navLin.distance ptA ptB ∧
    simLoop navLin windOf0 wxf0 [ptB] [] ⟨ptA, 0, 0, 7200, 7200⟩ =
      ⟨[legA], false, []⟩ := by
  have hne : ¬(SimState.here ⟨ptA, 0, 0, 7200, 7200⟩ = ptB) := by
    intro h
    have h2 := congrArg LatLon.lon h
    norm_num [ptA, ptB] at h2
  have hgt : stepDist navLin windOf0 wxf0 ⟨ptA, 0, 0, 7200, 7200⟩ ptB >
      navLin.distance ptA ptB := by
    rw [stepDist_calm]
    show ((hours 7200 : ℤ) : ℝ) > |ptB.lon - ptA.lon|
    rw [show hours 7200 = 2 from by decide]
    norm_num [ptA, ptB]
  refine ⟨hne, hgt, ?_⟩
  rw [simulate_reached_step navLin windOf0 wxf0 ⟨ptA, 0, 0, 7200, 7200⟩ ptB [] []
    hne hgt, simLoop_nil, stepCourse_calm, stepRelWind_calm]
  have harg : ((hours (SimState.dt ⟨ptA, 0, 0, 7200, 7200⟩) : ℤ) : ℝ) *
      (SECONDS_IN_HOUR : ℝ) *
      navLin.distance (SimState.here ⟨ptA, 0, 0, 7200, 7200⟩) ptB /
      stepDist navLin windOf0 wxf0 ⟨ptA, 0, 0, 7200, 7200⟩ ptB = 3600 := by
    rw [stepDist_calm]
    show ((hours 7200 : ℤ) : ℝ) * (SECONDS_IN_HOUR : ℝ) *
      |ptB.lon - ptA.lon| / ((hours 7200 : ℤ) : ℝ) = 3600
    rw [show hours 7200 = 2 from by decide]
    norm_num [ptA, ptB, SECONDS_IN_HOUR]
  rw [harg, pyInt_of_nonneg (by norm_num)]
  rw [show ((3600 : ℝ)) = ((3600 : ℤ) : ℝ) by norm_num, Int.floor_intCast]
  show consLeg ⟨⟨ptA, 1, 0, 0⟩, 0 + 3600, ⟨0, 0⟩,
    |ptB.lon - ptA.lon|, 0⟩ ⟨[], false, []⟩ = ⟨[legA], false, []⟩
  norm_num [consLeg, legA, ptA, ptB]

/-- C2 (counterexample).  With a single timestamp the time axis is
already exhausted before the distinct second waypoint can be reached,
yet the run ends with the exhaustion condition *not* surfaced
(`exhausted = false`): the `StopIteration` of line 116 fires outside
the `try` block and nothing is logged. -/
theorem simulate_single_timestamp_unflagged :
    ptA ≠ ptC ∧
    simulate_passage navLin windOf0 [ptA, ptC] 0 [0] wxf0 =
      some ⟨[], false, [ptC]⟩ := by
  constructor
  · intro h
    have h2 := congrArg LatLon.lon h
    norm_num [ptA, ptC] at h2
  · rfl

/-- C2 (witness). -/
theorem simulate_exhaustion_flagged_witness :
    2 ≤ (List.insertionSort (· ≤ ·) ([0, 7200] : List ℤ)).length ∧
    (SimResult.pending ⟨[], true, [ptC]⟩ ≠ []) ∧
    SimResult.exhausted ⟨[], true, [ptC]⟩ = true := by
  refine ⟨by norm_num, by simp, ?_⟩
  exact simulate_exhaustion_flagged navLin windOf0 [ptA, ptC] 0 [0, 7200] wxf0
    ⟨[], true, [ptC]⟩ (by norm_num) run_S2 (by simp)

/-- C8 (witness). -/
theorem simulate_legs_speed_dist_bounds_witness :
    0 ≤ navLin.distance ptA ptB ∧ 1 ≤ legA.course.speed ∧ 0 ≤ legA.distance := by
  have h := simulate_legs_speed_dist_bounds navLin windOf0 [ptA, ptB] 0
    [0, 7200] wxf0 ⟨[legA], false, []⟩ (fun a b => abs_nonneg _) run_S1 legA
    (by simp)
  exact ⟨abs_nonneg _, h.1, h.2⟩

/-- C9 (counterexample).  With zero timestamps, `max(times)` on line 111
raises `ValueError`, which escapes to the caller: the "fewer than two
timestamps" claim fails at zero timestamps because an error *is*
raised. -/
theorem simulate_no_timestamps_raises :
    simulate_passage navLin windOf0 [ptA, ptC] 0 [] wxf0 = none := rfl

/-- A first concrete leg for the summarizer bug: wind 5 knots, step
distance 10 miles. -/
def legP1 : Leg := ⟨⟨ptA, 1, 0, 0⟩, 0, ⟨5, 0⟩, 10, 0⟩

/-- A second concrete leg for the summarizer bug: wind 5 knots, step
distance 20 miles. -/
def legP2 : Leg := ⟨⟨ptA, 1, 0, 0⟩, 3600, ⟨5, 0⟩, 20, 0⟩

/-- C6 (code bug).  On a two-leg passage with wind speeds `[5, 5]` and
step distances `[10, 20]`, `summarize_passage` reports `max_dist = 5`
and `avg_dist = 5` — the maximum and mean of the *wind* list (line 252
reads `np.max(wind)`/`np.mean(wind)` where the `dist` list built on
line 251 was clearly intended) — while the per-leg distance values have
maximum 20 and mean 15 as the spec states. -/
theorem summarize_passage_dist_stats_bug :
    (summarize_passage navLin [legP1, legP2]).map Summary.max_dist = some 5 ∧
    (summarize_passage navLin [legP1, legP2]).map Summary.avg_dist = some 5 ∧
    listMaxD legP1.distance [legP2.distance] = 20 ∧
    listMean [legP1.distance, legP2.distance] = 15 := by
  refine ⟨?_, ?_, ?_, ?_⟩
  · show some (listMaxD legP1.wind.speed [legP2.wind.speed]) = some 5
    norm_num [listMaxD, legP1, legP2]
  · show some (listMean [legP1.wind.speed, legP2.wind.speed]) = some 5
    norm_num [listMean, legP1, legP2]
  · norm_num [listMaxD, legP1, legP2]
  · norm_num [listMean, legP1, legP2]

/-- The storm-run leg: same trajectory, 100-knot wind. -/
def legAs : Leg := ⟨⟨ptA, 1, 0, 0⟩, 3600, ⟨100, 0⟩, 1, 0⟩

/-- Concrete calm three-timestamp run on `[ptA, ptA, ptD]`: the first
destination is skipped immediately, one advance leg is yielded, then the
iterator runs dry. -/
theorem run_S6 : simulate_passage navLin windOf0 [ptA, ptA, ptD] 0
    [0, 3600, 7200] wxf0 = some ⟨[legA], true, [ptD]⟩ := by
  have hne1 : ¬(SimState.here ⟨ptA, 0, 0, 3600, 3600⟩ = ptD) := by
    intro h
    have h2 := congrArg LatLon.lon h
    norm_num [ptA, ptD] at h2
  have hsd : stepDist navLin windOf0 wxf0 ⟨ptA, 0, 0, 3600, 3600⟩ ptD = 1 := by
    rw [stepDist_calm]
    rw [show hours 3600 = 1 from by decide]
    norm_num
  have hle1 : ¬(stepDist navLin windOf0 wxf0 ⟨ptA, 0, 0, 3600, 3600⟩ ptD >
      navLin.distance ptA ptD) := by
    rw [hsd]
    show ¬((1 : ℝ) > |ptD.lon - ptA.lon|)
    norm_num [ptA, ptD]
  unfold simulate_passage pyCopy pyPop0
  dsimp only
  rw [show List.insertionSort (· ≤ ·) ([0, 3600, 7200] : List ℤ) =
    [0, 3600, 7200] from rfl]
  dsimp only
  rw [show (3600 : ℤ) - 0 = 3600 from by norm_num]
  rw [simLoop_skip navLin windOf0 wxf0 [ptD] [7200]
    (show SimState.here ⟨ptA, 0, 0, 3600, 3600⟩ = ptA from rfl)]
  rw [simLoop_advance navLin windOf0 wxf0 [] 7200 [] hne1 hle1]
  rw [hsd]
  have hpath : navLin.path ptA 0 1 = (⟨0, 1⟩ : LatLon) := by
    show (⟨ptA.lat, ptA.lon + 1⟩ : LatLon) = (⟨0, 1⟩ : LatLon)
    norm_num [ptA]
  rw [show navLin.bearing ptA ptD = 0 from rfl, hpath]
  rw [show (7200 : ℤ) - 3600 = 3600 from by norm_num]
  have hne2 : ¬(SimState.here ⟨(⟨0, 1⟩ : LatLon), 3600, 3600, 7200, 3600⟩ = ptD) := by
    intro h
    have h2 := congrArg LatLon.lon h
    norm_num [ptD] at h2
  have hle2 : ¬(stepDist navLin windOf0 wxf0
      ⟨(⟨0, 1⟩ : LatLon), 3600, 3600, 7200, 3600⟩ ptD >
      navLin.distance (⟨0, 1⟩ : LatLon) ptD) := by
    rw [stepDist_calm]
    rw [show hours 3600 = 1 from by decide]
    show ¬(((1 : ℤ) : ℝ) > |ptD.lon - (1 : ℝ)|)
    norm_num [ptD]
  rw [simLoop_stop navLin windOf0 wxf0 [] hne2 hle2]
  rw [stepCourse_calm, stepRelWind_calm]
  show some (consLeg ⟨⟨ptA, 1, 0, 0⟩, 3600, ⟨0, 0⟩, 1, 0⟩ ⟨[], true, [ptD]⟩) =
    some ⟨[legA], true, [ptD]⟩
  norm_num [consLeg, legA]

/-- Concrete storm three-timestamp run on `[ptA, ptA, ptD]`. -/
theorem run_S7 : simulate_passage navLin windOf100 [ptA, ptA, ptD] 0
    [0, 3600, 7200] wxf0 = some ⟨[legAs], true, [ptD]⟩ := by
  have hne1 : ¬(SimState.here ⟨ptA, 0, 0, 3600, 3600⟩ = ptD) := by
    intro h
    have h2 := congrArg LatLon.lon h
    norm_num [ptA, ptD] at h2
  have hsd : stepDist navLin windOf100 wxf0 ⟨ptA, 0, 0, 3600, 3600⟩ ptD = 1 := by
    rw [stepDist_storm]
    rw [show hours 3600 = 1 from by decide]
    norm_num
  have hle1 : ¬(stepDist navLin windOf100 wxf0 ⟨ptA, 0, 0, 3600, 3600⟩ ptD >
      navLin.distance ptA ptD) := by
    rw [hsd]
    show ¬((1 : ℝ) > |ptD.lon - ptA.lon|)
    norm_num [ptA, ptD]
  unfold simulate_passage pyCopy pyPop0
  dsimp only
  rw [show List.insertionSort (· ≤ ·) ([0, 3600, 7200] : List ℤ) =
    [0, 3600, 7200] from rfl]
  dsimp only
  rw [show (3600 : ℤ) - 0 = 3600 from by norm_num]
  rw [simLoop_skip navLin windOf100 wxf0 [ptD] [7200]
    (show SimState.here ⟨ptA, 0, 0, 3600, 3600⟩ = ptA from rfl)]
  rw [simLoop_advance navLin windOf100 wxf0 [] 7200 [] hne1 hle1]
  rw [hsd]
  have hpath : navLin.path ptA 0 1 = (⟨0, 1⟩ : LatLon) := by
    show (⟨ptA.lat, ptA.lon + 1⟩ : LatLon) = (⟨0, 1⟩ : LatLon)
    norm_num [ptA]
  rw [show navLin.bearing ptA ptD = 0 from rfl, hpath]
  rw [show (7200 : ℤ) - 3600 = 3600 from by norm_num]
  have hne2 : ¬(SimState.here ⟨(⟨0, 1⟩ : LatLon), 3600, 3600, 7200, 3600⟩ = ptD) := by
    intro h
    have h2 := congrArg LatLon.lon h
    norm_num [ptD] at h2
  have hle2 : ¬(stepDist navLin windOf100 wxf0
      ⟨(⟨0, 1⟩ : LatLon), 3600, 3600, 7200, 3600⟩ ptD >
      navLin.distance (⟨0, 1⟩ : LatLon) ptD) := by
    rw [stepDist_storm]
    rw [show hours 3600 = 1 from by decide]
    show ¬(((1 : ℤ) : ℝ) > |ptD.lon - (1 : ℝ)|)
    norm_num [ptD]
  rw [simLoop_stop navLin windOf100 wxf0 [] hne2 hle2]
  rw [stepCourse_storm, stepRelWind_storm]
  show some (consLeg ⟨⟨ptA, 1, 0, 0⟩, 3600, ⟨100, 0⟩, 1, 0⟩ ⟨[], true, [ptD]⟩) =
    some ⟨[legAs], true, [ptD]⟩
  norm_num [consLeg, legAs]

/-- The calm single-leg summary. -/
def sumCalm : Summary := ⟨0, 0, 0, 0, 0, 1, 0, 0, [true]⟩

/-- The storm single-leg summary: note that `max_dist`/`avg_dist` carry
the wind statistic, per line 252. -/
def sumStorm : Summary := ⟨0, 0, 100, 100, 100, 1, 100, 100, [true]⟩

/-- Summarizing the calm run. -/
theorem summarize_calm : summarize_passage navLin [legA] = some sumCalm := by
  unfold summarize_passage
  dsimp only
  simp only [List.map_cons, List.map_nil, List.getLast_singleton]
  have hpct : (if legA.rel_wind_dir < Real.pi / 4 then true else false) = true := by
    rw [if_pos]
    show (0 : ℝ) < Real.pi / 4
    positivity
  rw [hpct, show hours (legA.time - legA.time) = 0 from by decide]
  norm_num [legA, ptA, sumCalm, listMean, listMinD, listMaxD, navLin]

/-- Summarizing the storm run. -/
theorem summarize_storm : summarize_passage navLin [legAs] = some sumStorm := by
  unfold summarize_passage
  dsimp only
  simp only [List.map_cons, List.map_nil, List.getLast_singleton]
  have hpct : (if legAs.rel_wind_dir < Real.pi / 4 then true else false) = true := by
    rw [if_pos]
    show (0 : ℝ) < Real.pi / 4
    positivity
  rw [hpct, show hours (legAs.time - legAs.time) = 0 from by decide]
  norm_num [legAs, ptA, sumStorm, listMean, listMinD, listMaxD, navLin]

/-- The candidate generated at `t = 0` for the concrete optimizer
scenario collapses to the start point. -/
theorem lerp_S6 : lerpCand ⟨ptA.lat, ptD.lon⟩ ⟨ptD.lat, ptA.lon⟩
    (((0 : ℕ) : ℝ) / ((1 : ℕ) : ℝ)) = ptA := by
  unfold lerpCand
  norm_num [ptA, ptD]

/-- The calm candidate summaries. -/
theorem routesCalm : optimalRoutes navLin windOf0 ptA ptD 0
    [([0, 3600, 7200], wxf0)] 1 = some [(ptA, [sumCalm])] := by
  unfold optimalRoutes simulate_passages
  dsimp only
  rw [show List.range 1 = [0] from rfl]
  simp only [List.map_cons, List.map_nil]
  rw [lerp_S6]
  simp only [List.mapM_cons, List.mapM_nil]
  rw [run_S6]
  simp only [Option.pure_def, Option.bind_eq_bind, Option.some_bind,
    Option.map_some, Option.bind_some]
  simp only [List.mapM_cons, List.mapM_nil]
  rw [summarize_calm]
  simp only [Option.pure_def, Option.bind_eq_bind, Option.some_bind,
    Option.map_some, Option.bind_some]
  rfl

/-- The storm candidate summaries. -/
theorem routesStorm : optimalRoutes navLin windOf100 ptA ptD 0
    [([0, 3600, 7200], wxf0)] 1 = some [(ptA, [sumStorm])] := by
  unfold optimalRoutes simulate_passages
  dsimp only
  rw [show List.range 1 = [0] from rfl]
  simp only [List.map_cons, List.map_nil]
  rw [lerp_S6]
  simp only [List.mapM_cons, List.mapM_nil]
  rw [run_S7]
  simp only [Option.pure_def, Option.bind_eq_bind, Option.some_bind,
    Option.map_some, Option.bind_some]
  simp only [List.mapM_cons, List.mapM_nil]
  rw [summarize_storm]
  simp only [Option.pure_def, Option.bind_eq_bind, Option.some_bind,
    Option.map_some, Option.bind_some]
  rfl

/-- The calm candidate passes the safety filter. -/
theorem safeCalm : safeFilter [(ptA, [sumCalm])] = some [(ptA, [sumCalm])] := by
  unfold safeFilter issafeRoute
  simp only [List.map_cons, List.map_nil]
  rw [show (if listMaxD sumCalm.max_wind [] ≤ MAX_WIND_SPEED then true
      else false) = true from by
    rw [if_pos]
    show (0 : ℝ) ≤ 35
    norm_num]
  rfl

/-- Idealness of the lone calm candidate evaluates to zero (the
relative-mean terms degrade to `0/0 = 0` in this one-candidate
scenario). -/
theorem ideal_calm : idealness [(ptA, [sumCalm])] [sumCalm] = some 0 := by
  unfold idealness routeUpwind
  dsimp only
  simp only [List.map_cons, List.map_nil]
  rw [if_pos (show ∀ l ∈ [sumCalm.pct_upwind],
      l.length = ([sumCalm.pct_upwind].headD []).length from by
    intro l hl
    rw [List.mem_singleton] at hl
    subst hl
    rfl)]
  rw [Option.map_some']
  norm_num [routeTime, routeDist, listMean, sumCalm, List.flatten_cons,
    List.flatten_nil]

/-- C5 (witness). -/
theorem optimal_passage_selects_min_idealness_witness :
    optimal_passage navLin windOf0 ptA ptD 0 [([0, 3600, 7200], wxf0)] 1 =
      some ptA := by
  have hideal : (([(ptA, [sumCalm])] : List (LatLon × List Summary)).mapM
      fun xr => idealness [(ptA, [sumCalm])] xr.2) = some [0] := by
    simp only [List.mapM_cons, List.mapM_nil]
    rw [ideal_calm]
    rfl
  have h := optimal_passage_selects_min_idealness navLin windOf0 ptA ptD 0
    [([0, 3600, 7200], wxf0)] 1 [(ptA, [sumCalm])] [(ptA, [sumCalm])] [0]
    routesCalm safeCalm hideal (by simp)
  exact h.1.trans rfl

/-- C4 (witness). -/
theorem optimal_passage_none_of_unsafe_witness :
    optimal_passage navLin windOf100 ptA ptD 0 [([0, 3600, 7200], wxf0)] 1 =
      none := by
  refine optimal_passage_none_of_unsafe navLin windOf100 ptA ptD 0
    [([0, 3600, 7200], wxf0)] 1 [(ptA, [sumStorm])] routesStorm ?_
  intro xr hxr
  rw [List.mem_singleton] at hxr
  subst hxr
  show issafeRoute [sumStorm] = some false
  unfold issafeRoute
  simp only [List.map_cons, List.map_nil]
  rw [show (if listMaxD sumStorm.max_wind [] ≤ MAX_WIND_SPEED then true
      else false) = false from by
    rw [if_neg]
    show ¬((100 : ℝ) ≤ 35)
    norm_num]

/-- C7 (witness). -/
theorem boat_speed_continuous_monotone_witness :
    |(0 : ℝ) - 0| ≤ 2 * Real.pi ∧
    boat_speed ⟨REQ_WIND_SPEED, 0⟩ 0 = boat_speed ⟨20, 0⟩ 0 ∧
    boat_speed ⟨4, 0⟩ 0 ≤ boat_speed ⟨10, 0⟩ 0 := by
  have hb : |(0 : ℝ) - 0| ≤ 2 * Real.pi := by
    rw [show |(0 : ℝ) - 0| = 0 by norm_num]
    positivity
  refine ⟨hb, ?_, ?_⟩
  · exact (boat_speed_continuous_monotone 0 0 hb).1 20
      (by norm_num [REQ_WIND_SPEED]) (by norm_num [MAX_WIND_SPEED])
  · exact (boat_speed_continuous_monotone 0 0 hb).2 4 10
      (by norm_num [MIN_WIND_SPEED]) (by norm_num) (by norm_num [REQ_WIND_SPEED])

/-- The second leg of the four-timestamp calm run, departing one mile
east of the origin. -/
def legA2 : Leg := ⟨⟨⟨0, 1⟩, 1, 0, 0⟩, 7200, ⟨0, 0⟩, 1, 0⟩

/-- Concrete calm four-timestamp run on `[ptA, ptA, ptD]`: two advance
legs, then the destination is reached exactly and the run terminates
normally. -/
theorem run_S8 : simulate_passage navLin windOf0 [ptA, ptA, ptD] 0
    [0, 3600, 7200, 10800] wxf0 = some ⟨[legA, legA2], false, []⟩ := by
  have hne1 : ¬(SimState.here ⟨ptA, 0, 0, 3600, 3600⟩ = ptD) := by
    intro h
    have h2 := congrArg LatLon.lon h
    norm_num [ptA, ptD] at h2
  have hsd : stepDist navLin windOf0 wxf0 ⟨ptA, 0, 0, 3600, 3600⟩ ptD = 1 := by
    rw [stepDist_calm]
    rw [show hours 3600 = 1 from by decide]
    norm_num
  have hle1 : ¬(stepDist navLin windOf0 wxf0 ⟨ptA, 0, 0, 3600, 3600⟩ ptD >
      navLin.distance ptA ptD) := by
    rw [hsd]
    show ¬((1 : ℝ) > |ptD.lon - ptA.lon|)
    norm_num [ptA, ptD]
  unfold simulate_passage pyCopy pyPop0
  dsimp only
  rw [show List.insertionSort (· ≤ ·) ([0, 3600, 7200, 10800] : List ℤ) =
    [0, 3600, 7200, 10800] from rfl]
  dsimp only
  rw [show (3600 : ℤ) - 0 = 3600 from by norm_num]
  rw [simLoop_skip navLin windOf0 wxf0 [ptD] [7200, 10800]
    (show SimState.here ⟨ptA, 0, 0, 3600, 3600⟩ = ptA from rfl)]
  rw [simLoop_advance navLin windOf0 wxf0 [] 7200 [10800] hne1 hle1]
  rw [hsd]
  have hpath : navLin.path ptA 0 1 = (⟨0, 1⟩ : LatLon) := by
    show (⟨ptA.lat, ptA.lon + 1⟩ : LatLon) = (⟨0, 1⟩ : LatLon)
    norm_num [ptA]
  rw [show navLin.bearing ptA ptD = 0 from rfl, hpath]
  rw [show (7200 : ℤ) - 3600 = 3600 from by norm_num]
  have hne2 : ¬(SimState.here ⟨(⟨0, 1⟩ : LatLon), 3600, 3600, 7200, 3600⟩ = ptD) := by
    intro h
    have h2 := congrArg LatLon.lon h
    norm_num [ptD] at h2
  have hsd2 : stepDist navLin windOf0 wxf0
      ⟨(⟨0, 1⟩ : LatLon), 3600, 3600, 7200, 3600⟩ ptD = 1 := by
    rw [stepDist_calm]
    rw [show hours 3600 = 1 from by decide]
    norm_num
  have hle2 : ¬(stepDist navLin windOf0 wxf0
      ⟨(⟨0, 1⟩ : LatLon), 3600, 3600, 7200, 3600⟩ ptD >
      navLin.distance (⟨0, 1⟩ : LatLon) ptD) := by
    rw [hsd2]
    show ¬((1 : ℝ) > |ptD.lon - (1 : ℝ)|)
    norm_num [ptD]
  rw [simLoop_advance navLin windOf0 wxf0 [] 10800 [] hne2 hle2]
  rw [hsd2]
  have hpath2 : navLin.path (⟨0, 1⟩ : LatLon) 0 1 = ptD := by
    show (⟨(0 : ℝ), (1 : ℝ) + 1⟩ : LatLon) = ptD
    norm_num [ptD]
  rw [show navLin.bearing (⟨0, 1⟩ : LatLon) ptD = 0 from rfl, hpath2]
  rw [show (10800 : ℤ) - 7200 = 3600 from by norm_num]
  rw [simLoop_skip navLin windOf0 wxf0 [] []
    (show SimState.here ⟨ptD, 7200, 7200, 10800, 3600⟩ = ptD from rfl)]
  rw [simLoop_nil]
  rw [stepCourse_calm, stepCourse_calm, stepRelWind_calm, stepRelWind_calm]
  show some (consLeg ⟨⟨ptA, 1, 0, 0⟩, 3600, ⟨0, 0⟩, 1, 0⟩
    (consLeg ⟨⟨⟨0, 1⟩, 1, 0, 0⟩, 7200, ⟨0, 0⟩, 1, 0⟩ ⟨[], false, []⟩)) =
    some ⟨[legA, legA2], false, []⟩
  norm_num [consLeg, legA, legA2]

/-- The summary of the two-leg calm run: same wind statistics, two
upwind booleans. -/
def sumCalm2 : Summary := ⟨1, 1, 0, 0, 0, 1, 0, 0, [true, true]⟩

/-- Summarizing the two-leg calm run. -/
theorem summarize_calm2 : summarize_passage navLin [legA, legA2] =
    some sumCalm2 := by
  unfold summarize_passage
  dsimp only
  simp only [List.map_cons, List.map_nil]
  have hpct1 : (if legA.rel_wind_dir < Real.pi / 4 then true else false) = true := by
    rw [if_pos]
    show (0 : ℝ) < Real.pi / 4
    positivity
  have hpct2 : (if legA2.rel_wind_dir < Real.pi / 4 then true else false) = true := by
    rw [if_pos]
    show (0 : ℝ) < Real.pi / 4
    positivity
  rw [hpct1, hpct2]
  have hlast : ∀ h, ([legA, legA2].getLast h) = legA2 := fun h => rfl
  rw [hlast]
  rw [show hours (legA2.time - legA.time) = 1 from by decide]
  norm_num [legA, legA2, ptA, sumCalm2, listMean, listMinD, listMaxD, navLin]

/-- The ragged two-member candidate summaries: one member produced one
leg, the other two. -/
theorem routesRagged : optimalRoutes navLin windOf0 ptA ptD 0
    [([0, 3600, 7200], wxf0), ([0, 3600, 7200, 10800], wxf0)] 1 =
    some [(ptA, [sumCalm, sumCalm2])] := by
  unfold optimalRoutes simulate_passages
  dsimp only
  rw [show List.range 1 = [0] from rfl]
  simp only [List.map_cons, List.map_nil]
  rw [lerp_S6]
  simp only [List.mapM_cons, List.mapM_nil]
  rw [run_S6, run_S8]
  simp only [Option.pure_def, Option.bind_eq_bind, Option.some_bind,
    Option.map_some, Option.bind_some]
  simp only [List.mapM_cons, List.mapM_nil]
  rw [summarize_calm, summarize_calm2]
  simp only [Option.pure_def, Option.bind_eq_bind, Option.some_bind,
    Option.map_some, Option.bind_some]
  rfl

/-- The ragged candidate passes the safety filter: every member's max
wind is zero. -/
theorem safeRagged : safeFilter [(ptA, [sumCalm, sumCalm2])] =
    some [(ptA, [sumCalm, sumCalm2])] := by
  unfold safeFilter issafeRoute
  simp only [List.map_cons, List.map_nil]
  rw [show (if listMaxD sumCalm.max_wind [sumCalm2.max_wind] ≤ MAX_WIND_SPEED
      then true else false) = true from by
    rw [if_pos]
    rw [show listMaxD sumCalm.max_wind [sumCalm2.max_wind] = 0 from by
      norm_num [listMaxD, sumCalm, sumCalm2]]
    norm_num [MAX_WIND_SPEED]]
  rfl

/-- The `np.mean` of the ragged nested `pct_upwind` lists fails: the
member lists have lengths 1 and 2. -/
theorem ideal_ragged : idealness [(ptA, [sumCalm, sumCalm2])]
    [sumCalm, sumCalm2] = none := by
  unfold idealness routeUpwind
  dsimp only
  simp only [List.map_cons, List.map_nil]
  rw [if_neg]
  · rfl
  · intro hall
    have h2 := hall sumCalm2.pct_upwind (by simp)
    norm_num [sumCalm, sumCalm2] at h2

/-- C5 (counterexample).  An ensemble whose two members reach different
step counts (one leg versus two) for the same — safe — candidate: the
summaries are computed and the candidate passes the safety filter, yet
`optimal_passage` returns no candidate at all, because `np.mean` of the
ragged nested `pct_upwind` lists (line 205) raises a `TypeError`
instead of producing an idealness value. -/
theorem optimal_passage_ragged_not_selected :
    optimalRoutes navLin windOf0 ptA ptD 0
      [([0, 3600, 7200], wxf0), ([0, 3600, 7200, 10800], wxf0)] 1 =
      some [(ptA, [sumCalm, sumCalm2])] ∧
    safeFilter [(ptA, [sumCalm, sumCalm2])] =
      some [(ptA, [sumCalm, sumCalm2])] ∧
    optimal_passage navLin windOf0 ptA ptD 0
      [([0, 3600, 7200], wxf0), ([0, 3600, 7200, 10800], wxf0)] 1 = none := by
  refine ⟨routesRagged, safeRagged, ?_⟩
  unfold optimal_passage
  rw [routesRagged, Option.some_bind, safeRagged, Option.some_bind]
  simp only [List.mapM_cons, List.mapM_nil]
  rw [ideal_ragged]
  rfl
